import Mathlib

/-!
Verification of the Yalla-Motors new-cars scraper (src/core/scrape_new.py)
against its natural-language specification.

The Python core is shallowly embedded below.  Pure helpers become Lean
functions; browser/DB effects are modelled by passing explicit environments
(what each in-page evaluation would return) and an explicit document store.
All definitions are executable.
-/

-- ===========================================================================
-- String utilities (embedding of the JS and Python string helpers)
-- ===========================================================================

/-- Strip leading and trailing whitespace, as Python str.strip() and JS
String.prototype.trim do on the inputs arising here. -/
def pyStrip (s : String) : String :=
  String.mk (((s.toList.dropWhile Char.isWhitespace).reverse.dropWhile Char.isWhitespace).reverse)

/-- Boolean substring test over char lists: does `pat` occur inside the list?
Mirrors the semantics of both the Python `in` operator and the JS
`String.prototype.includes` used by the source. -/
def listSub (pat : List Char) : List Char → Bool
  | [] => pat.isEmpty
  | c :: cs => List.isPrefixOf pat (c :: cs) || listSub pat cs

/-- Python and JS substring containment on strings. -/
def strContains (s pat : String) : Bool := listSub pat.toList s.toList

/-- One-pass replacement of the first occurrence of `pat` (nonempty) by `rep`,
mirroring the scan of Python str.replace(old, new, 1). -/
def replaceFirstGo (pat rep : List Char) : List Char → List Char
  | [] => []
  | c :: cs =>
    if List.isPrefixOf pat (c :: cs) then rep ++ List.drop pat.length (c :: cs)
    else c :: replaceFirstGo pat rep cs

/-- Python url.replace(old, new, 1): replace the first occurrence only.
Python inserts `rep` at position 0 when `pat` is empty. -/
def pyReplaceFirst (s pat rep : String) : String :=
  if pat.toList = [] then String.mk (rep.toList ++ s.toList)
  else String.mk (replaceFirstGo pat.toList rep.toList s.toList)

-- ===========================================================================
-- to_arabic_url (src/core/scrape_new.py lines 27-39)
-- ===========================================================================

def AR_SEG : String := "://ksa.yallamotor.com/ar/"

def BASE_SEG : String := "://ksa.yallamotor.com/"

/-- Embedding of to_arabic_url: empty url unchanged; url already containing
the /ar/ locale segment unchanged; otherwise the first occurrence of the
origin segment is replaced by its /ar/ variant. -/
def to_arabic_url (url : String) : String :=
  if url = "" then url
  else if strContains url AR_SEG then url
  else pyReplaceFirst url BASE_SEG AR_SEG

-- ===========================================================================
-- cleanText and the price derivation (extract_detail_basic, lines 188-238)
-- ===========================================================================

/-- Collapse every maximal whitespace run to one space, as the JS
replace of the whitespace-run pattern by a single space does.  The flag
records whether the previous character belonged to a whitespace run. -/
def collapseWsAux : Bool → List Char → List Char
  | _, [] => []
  | prevWs, c :: cs =>
    if c.isWhitespace then
      if prevWs then collapseWsAux true cs else ' ' :: collapseWsAux true cs
    else c :: collapseWsAux false cs

/-- Embedding of the JS cleanText helper: collapse whitespace runs, trim. -/
def cleanText (s : String) : String := pyStrip (String.mk (collapseWsAux false s.toList))

/-- Character class of the body of the SAR price pattern: digits, comma, dot. -/
def isSarBodyChar (c : Char) : Bool := c.isDigit || c = ',' || c = '.'

/-- Try to match the SAR price pattern (literal SAR, then whitespace, then a
nonempty run of digits, commas and dots; both runs greedy) at the head of the
list, returning the matched characters. -/
def sarMatchAt : List Char → Option (List Char)
  | 'S' :: 'A' :: 'R' :: rest =>
    let ws := rest.takeWhile Char.isWhitespace
    let rest2 := rest.dropWhile Char.isWhitespace
    let body := rest2.takeWhile isSarBodyChar
    if body = [] then none
    else some ('S' :: 'A' :: 'R' :: (ws ++ body))
  | _ => none

/-- Scan left to right for the first position where the SAR pattern matches,
as the JS regex match does. -/
def sarScan : List Char → Option (List Char)
  | [] => none
  | c :: cs =>
    match sarMatchAt (c :: cs) with
    | some m => some m
    | none => sarScan cs

/-- First match of the SAR currency pattern in a string, if any. -/
def sarMatch (s : String) : Option String := (sarScan s.toList).map String.mk

/-- JS Number on a digits-only string: the empty string yields 0. -/
def jsNatOfDigits (l : List Char) : Nat := l.foldl (fun a c => a * 10 + (c.toNat - 48)) 0

/-- The digit characters of a string, in order (the JS replace that deletes
every non-digit character). -/
def digitsOf (s : String) : List Char := s.toList.filter Char.isDigit

/-- Embedding of priceNumber: null when priceText is null; otherwise JS
Number of the digits-only text, coerced to null when falsy (zero). -/
def priceNumberOf : Option String → Option Nat
  | none => none
  | some t =>
    let n := jsNatOfDigits (digitsOf t)
    if n = 0 then none else some n

/-- Embedding of the priceText derivation: find the first node text (already
per-node innerText, cleaned) that the SAR pattern matches, and take the
matched substring of its cleaned text (falling back to the whole cleaned
text, as the source does). -/
def priceTextOf (texts : List String) : Option String :=
  match texts.find? (fun t => (sarMatch (cleanText t)).isSome) with
  | none => none
  | some t =>
    match sarMatch (cleanText t) with
    | some m => some m
    | none => some (cleanText t)

-- ===========================================================================
-- Image selection (extract_detail_basic, lines 243-286)
-- ===========================================================================

/-- JS || on strings: the left operand unless it is empty (falsy). -/
def jsOr (a b : String) : String := if a = "" then b else a

/-- One img element as the extractor reads it: the currentSrc property, the
src attribute, the src property, the data-src attribute, the srcset
attribute.  Absent attributes are the empty string (JS null || fallback). -/
structure ImgEl where
  currentSrc : String
  srcAttr : String
  srcProp : String
  dataSrc : String
  srcset : String

/-- Last entry of a srcset list: split on commas, trim, drop empties, take
the url part (before the first space) of the last entry. -/
def srcsetLast (srcset : String) : String :=
  let parts := ((srcset.splitOn ",").map pyStrip).filter (fun s => s != "")
  match parts.getLast? with
  | none => ""
  | some p => pyStrip ((p.splitOn " ").headD "")

/-- The candidate sources pushed for one img element, in push order. -/
def collectOne (img : ImgEl) : List String :=
  let cur := pyStrip img.currentSrc
  let src := pyStrip (jsOr img.srcAttr img.srcProp)
  let data := pyStrip img.dataSrc
  let ss := pyStrip img.srcset
  (if cur != "" then [cur] else []) ++
  (if src != "" then [src] else []) ++
  (if data != "" then [data] else []) ++
  (if ss != "" then (let last := srcsetLast ss; if last != "" then [last] else []) else [])

/-- All candidate sources across the img elements, in traversal order. -/
def collectSources (imgs : List ImgEl) : List String :=
  (imgs.map collectOne).flatten

/-- A source in the vehicle-image bucket. -/
def isVehicle (s : String) : Bool := strContains s "/resized/car_model/"

/-- A curated (main or slide-show) vehicle-image source. -/
def isCurated (s : String) : Bool :=
  isVehicle s && (strContains s "webp_listing_main" || strContains s "webp_slide_show")

/-- First-seen-order deduplication with an explicit seen accumulator, as the
JS Set-based loop does. -/
def dedupFirstAux (seen : List String) : List String → List String
  | [] => []
  | s :: rest =>
    if s ∈ seen then dedupFirstAux seen rest
    else s :: dedupFirstAux (s :: seen) rest

/-- Embedding of the images selection: drop empty entries, prefer the curated
sub-bucket and otherwise fall back to the whole vehicle bucket, then dedup
preserving first-seen order. -/
def pickImages (collect : List String) : List String :=
  let allImgs := collect.filter (fun s => s != "")
  let preferred := allImgs.filter isCurated
  let fallback := allImgs.filter isVehicle
  dedupFirstAux [] (if preferred.isEmpty then fallback else preferred)

/-- The images list produced by one extraction call from the img elements. -/
def extractImages (imgs : List ImgEl) : List String :=
  pickImages (collectSources imgs)

-- ===========================================================================
-- Document values, documents and the Mongo-backed store (db/mongo.py is the
-- connection plumbing; the write semantics live in save_doc, lines 430-448)
-- ===========================================================================

/-- Values stored in a persisted document: strings, numbers, datetimes
(modelled as a Nat tick), string lists, string-to-string maps, and null. -/
inductive Val where
  | s (v : String)
  | n (v : Int)
  | t (v : Nat)
  | ls (v : List String)
  | m (v : List (String × String))
  | null
deriving DecidableEq, Repr

/-- A document is a finite map from field names to values, as an association
list with unique keys (Python dicts and Mongo documents). -/
abbrev Doc := List (String × Val)

/-- The collection: a finite map from _id (the canonical url) to documents. -/
abbrev Store := List (String × Doc)

def assocGet (d : Doc) (k : String) : Option Val :=
  (d.find? (fun p => p.1 == k)).map (fun p => p.2)

def docKeys (d : Doc) : List String := d.map (fun p => p.1)

def removeKey (d : Doc) (k : String) : Doc := d.filter (fun p => p.1 != k)

/-- Set one field of a document (Mongo $set of a single path: the key-value
map is updated; field order is not semantically relevant). -/
def setField (d : Doc) (k : String) (v : Val) : Doc := (k, v) :: removeKey d k

/-- Apply a $set clause: every provided field is set unconditionally. -/
def applySet (d : Doc) (s : Doc) : Doc :=
  s.foldl (fun acc p => setField acc p.1 p.2) d

def storeGet (st : Store) (i : String) : Option Doc :=
  (st.find? (fun p => p.1 == i)).map (fun p => p.2)

def storeSet (st : Store) (i : String) (d : Doc) : Store :=
  (i, d) :: st.filter (fun p => p.1 != i)

/-- Python truthiness of a document value. -/
def pyTruthy : Val → Bool
  | .s v => v != ""
  | .n v => v != 0
  | .t _ => true
  | .ls v => !v.isEmpty
  | .m v => !v.isEmpty
  | .null => false

/-- Python str() of a document value.  In this pipeline the url field is
always a string; the remaining cases are best-effort renderings. -/
def pyStr : Val → String
  | .s v => v
  | .n v => toString v
  | .t v => toString v
  | .ls _ => ""
  | .m _ => ""
  | .null => "None"

/-- Python str(x or "") on an optional value: empty for a missing or falsy
value, the string rendering otherwise. -/
def pyOrEmptyStr (v : Option Val) : String :=
  match v with
  | some x => if pyTruthy x then pyStr x else ""
  | none => ""

/-- Embedding of str(doc.get("url") or ""). -/
def urlStrOf (doc : Doc) : String := pyOrEmptyStr (assocGet doc "url")

/-- The store key save_doc uses: the stripped url field. -/
def docKey (doc : Doc) : String := pyStrip (urlStrOf doc)

/-- Embedding of save_doc: return unchanged when the stripped url is empty;
otherwise upsert keyed on the url, with the document's createdAt moved out of
the $set clause into a $setOnInsert clause.  On an existing document only the
$set fields are applied; on first insert the _id, the $setOnInsert createdAt
(null when the document carried none) and the $set fields are all written. -/
def save_doc (st : Store) (doc : Doc) : Store :=
  if docKey doc = "" then st
  else
    match storeGet st (docKey doc) with
    | some existing =>
      storeSet st (docKey doc) (applySet existing (removeKey doc "createdAt"))
    | none =>
      storeSet st (docKey doc)
        (applySet
          (setField [("_id", Val.s (docKey doc))] "createdAt"
            ((assocGet doc "createdAt").getD Val.null))
          (removeKey doc "createdAt"))

-- ===========================================================================
-- The extracted detail record and the two document shapes the scheduler
-- writes (scrape_forever, lines 612-676)
-- ===========================================================================

/-- The fields of the decoded extraction result that scrape_forever reads
(detail.get on the JSON dict; a missing key reads as none). -/
structure Detail where
  h1 : Option String
  breadcrumbs : Option (List String)
  priceText : Option String
  priceNumber : Option Int
  images : Option (List String)
  highlights : Option (List (String × String))
  measurements : Option (List (String × String))
  descriptionText : Option String
  descriptionHtml : Option String
  features : Option (List String)

/-- A Python exception as the per-item handler sees it. -/
structure PyExc where
  cls : String
  msg : String
deriving DecidableEq, Repr

/-- Python repr(e) for an exception: class name, parenthesized message. -/
def pyRepr (e : PyExc) : String := e.cls ++ "(" ++ e.msg ++ ")"

def optS : Option String → Val
  | some v => Val.s v
  | none => Val.null

def optN : Option Int → Val
  | some v => Val.n v
  | none => Val.null

/-- The success document scrape_forever assembles for one detail url. -/
def okDoc (detail_url : String) (d : Detail) (now : Nat) : Doc :=
  [("_id", Val.s detail_url),
   ("url", Val.s detail_url),
   ("source", Val.s "yallamotor"),
   ("type", Val.s "NEW_CAR"),
   ("status", Val.s "OK"),
   ("title", optS d.h1),
   ("breadcrumbs", Val.ls (d.breadcrumbs.getD [])),
   ("priceText", optS d.priceText),
   ("priceNumber", optN d.priceNumber),
   ("images", Val.ls (d.images.getD [])),
   ("highlights", Val.m (d.highlights.getD [])),
   ("measurements", Val.m (d.measurements.getD [])),
   ("descriptionText", optS d.descriptionText),
   ("descriptionHtml", optS d.descriptionHtml),
   ("features", Val.ls (d.features.getD [])),
   ("updatedAt", Val.t now),
   ("scrapedAt", Val.t now),
   ("createdAt", Val.t now)]

/-- The failure document written by the per-item exception handler. -/
def failDoc (detail_url : String) (e : PyExc) (now : Nat) : Doc :=
  [("_id", Val.s detail_url),
   ("url", Val.s detail_url),
   ("arUrl", Val.s (to_arabic_url detail_url)),
   ("source", Val.s "yallamotor"),
   ("type", Val.s "new_car"),
   ("status", Val.s "FAILED"),
   ("error", Val.s (pyRepr e)),
   ("updatedAt", Val.t now),
   ("scrapedAt", Val.t now),
   ("createdAt", Val.t now)]

/-- The rich content fields of a previously successful extraction named by
the frame-effect claim. -/
def richFields : List String :=
  ["title", "breadcrumbs", "priceText", "priceNumber", "images",
   "highlights", "measurements", "descriptionText", "descriptionHtml",
   "features"]

-- ===========================================================================
-- Listing collection (abs_url line 55-60, scrape_listing_page lines 560-567)
-- ===========================================================================

def BASE : String := "https://ksa.yallamotor.com"

/-- Resolution of an href against the fixed site origin, for the
root-relative and empty hrefs the listing selector yields. -/
def urljoin (base rel : String) : String :=
  if rel = "" then base else base ++ rel

/-- Embedding of abs_url: empty for a falsy href, the stripped href when
already absolute, otherwise resolved against BASE. -/
def abs_url (href : String) : String :=
  if href = "" then ""
  else
    let h := pyStrip href
    if h.startsWith "http" then h else urljoin BASE h

/-- Message of the RuntimeError scrape_listing_page raises when the listing
readiness wait times out. -/
def NO_ANCHORS_MSG : String := "No listing anchors found (layout changed?)"

/-- The outside world for one run: whether the listing readiness wait
succeeds on each page, the raw hrefs the listing query returns on each page,
the outcome of the whole detail pipeline (navigation, readiness wait,
feature expansion, extraction) for each localized detail url, and whether a
store write attempt (update_one inside save_doc) raises for the given
document, with the raised exception. -/
structure Env where
  anchorsFound : Nat → Bool
  hrefs : Nat → List String
  detail : String → Except PyExc Detail
  saveFails : Doc → Option PyExc

/-- The urls scrape_listing_page returns on success: each href resolved, and
only http(s) addresses kept. -/
def listingUrls (env : Env) (page : Nat) : List String :=
  ((env.hrefs page).map abs_url).filter (fun u => u.startsWith "http")

/-- Embedding of scrape_listing_page: raises (error) when readiness fails,
otherwise the resolved and filtered url list. -/
def scrape_listing_page (env : Env) (page : Nat) : Except String (List String) :=
  if env.anchorsFound page then Except.ok (listingUrls env page)
  else Except.error NO_ANCHORS_MSG

-- ===========================================================================
-- Run scheduler (scrape_forever, lines 575-690)
-- ===========================================================================

/-- Per-run mutable state: the document store, the seen set, and the list of
detail urls actually processed (entered the per-item try), in order. -/
structure SchedState where
  store : Store
  seen : List String
  processed : List String

/-- The except-handler block of the per-item loop (lines 658-676): upsert a
FAILED document for the caught exception; the fail write goes through the
same store and its own failure is swallowed by the bare handler around it
(lines 673-676), in which case nothing is written (a raising update_one
leaves the store unchanged — the single-document update is atomic). -/
def writeFail (env : Env) (now : Nat) (store : Store) (u : String) (e : PyExc) : Store :=
  match env.saveFails (failDoc u e now) with
  | none => save_doc store (failDoc u e now)
  | some _ => store

/-- The per-item try body plus its exception handler (lines 606-676):
localize, run the detail pipeline, then upsert the OK document; any
exception of the pipeline or of the OK upsert itself (line 654) is caught
and answered with the fail-write block. -/
def processItem (env : Env) (now : Nat) (store : Store) (u : String) : Store :=
  match env.detail (to_arabic_url u) with
  | Except.ok d =>
    match env.saveFails (okDoc u d now) with
    | none => save_doc store (okDoc u d now)
    | some e => writeFail env now store u e
  | Except.error e => writeFail env now store u e

/-- The inner loop over one page's detail urls: skip urls already in the
per-run seen set, otherwise mark seen and process. -/
def runItems (env : Env) (now : Nat) : SchedState → List String → SchedState
  | st, [] => st
  | st, u :: rest =>
    if u ∈ st.seen then runItems env now st rest
    else
      runItems env now
        ⟨processItem env now st.store u, u :: st.seen, st.processed ++ [u]⟩ rest

/-- Outcome of one run: the final per-run state, and the message of the
exception that escaped the page loop, if any.  The finally block closing
both tabs runs on every exit path and is therefore not recorded. -/
structure RunResult where
  state : SchedState
  escaped : Option String

/-- The page loop of scrape_forever, from a given page with a given number of
pages remaining: a raising scrape_listing_page aborts the loop with the
exception escaping (there is no handler for it); an empty url list breaks
out of the loop normally (end of results); otherwise the page's items are
processed and the loop continues. -/
def runPagesFrom (env : Env) (now : Nat) : Nat → Nat → SchedState → RunResult
  | _, 0, st => ⟨st, none⟩
  | page, rem + 1, st =>
    match scrape_listing_page env page with
    | Except.error e => ⟨st, some e⟩
    | Except.ok urls =>
      if urls = [] then ⟨st, none⟩
      else runPagesFrom env now (page + 1) rem (runItems env now st urls)

/-- One full run of the scrape_forever body: fresh seen set and processed
list, pages 1 up to the configured cap. -/
def runOnce (env : Env) (now maxPages : Nat) (store : Store) : RunResult :=
  runPagesFrom env now 1 maxPages ⟨store, [], []⟩

/-- The outside world across runs: an environment and a clock per run. -/
structure ForeverEnv where
  runEnv : Nat → Env
  runNow : Nat → Nat

/-- Result of the outer forever loop under a finite budget of runs: the
store, how many runs completed normally, and the escaped exception if one
run's page loop raised (in which case no later run starts). -/
structure ForeverResult where
  store : Store
  completedRuns : Nat
  escaped : Option String

/-- Embedding of the while-True loop of scrape_forever: each iteration is one
run; a run whose page loop raised re-raises after the finally block, so the
loop (and the process) ends with that exception and no further run starts;
otherwise the loop sleeps and starts the next run. -/
def foreverAux (fe : ForeverEnv) (maxPages : Nat) : Nat → Nat → Store → ForeverResult
  | 0, _, st => ⟨st, 0, none⟩
  | b + 1, i, st =>
    let r := runOnce (fe.runEnv i) (fe.runNow i) maxPages st
    match r.escaped with
    | some e => ⟨r.state.store, 0, some e⟩
    | none =>
      let rest := foreverAux fe maxPages b (i + 1) r.state.store
      ⟨rest.store, rest.completedRuns + 1, rest.escaped⟩

/-- scrape_forever observed for a finite budget of runs, starting at run 1. -/
def scrape_forever (fe : ForeverEnv) (maxPages budget : Nat) (st : Store) : ForeverResult :=
  foreverAux fe maxPages budget 1 st

-- ===========================================================================
-- Interaction controller (safe_click lines 453-469,
-- expand_features_if_needed lines 472-528)
-- ===========================================================================

/-- The rendering context for the feature-expansion protocol: what each
in-context evaluation would yield (ok value) or whether it raises (error).
countEval and goneEval are indexed by the poll counter. -/
structure ExpandEnv where
  countEval : Nat → Except String Nat
  ariaClickEval : Except String Bool
  fallbackClickEval : Except String Bool
  goneEval : Nat → Except String Bool

/-- The _count helper: its evaluation is wrapped in try/except, a failure
reads as 0. -/
def countFeatures (env : ExpandEnv) (t : Nat) : Nat :=
  match env.countEval t with
  | Except.ok n => n
  | Except.error _ => 0

/-- Embedding of safe_click on the aria-label button: the evaluation is
wrapped in try/except, a failure reads as not-clicked. -/
def safe_click (env : ExpandEnv) : Bool :=
  match env.ariaClickEval with
  | Except.ok b => b
  | Except.error _ => false

/-- How the expansion protocol ended. -/
inductive ExpandOutcome where
  | noop
  | grew
  | vanished
  | timedOut
deriving DecidableEq, Repr

/-- The polling loop after a successful click: wait until the chip count
grows past the initial count, or the button disappears (that check's
evaluation failure is swallowed), or the poll budget runs out (best-effort
completion).  This loop never raises. -/
def expandWait (env : ExpandEnv) (before : Nat) : Nat → Nat → ExpandOutcome
  | 0, _ => ExpandOutcome.timedOut
  | fuel + 1, t =>
    if before < countFeatures env t then ExpandOutcome.grew
    else
      match env.goneEval t with
      | Except.ok true => ExpandOutcome.vanished
      | _ => expandWait env before fuel (t + 1)

/-- Embedding of expand_features_if_needed.  The initial count and the
aria-label click are exception-protected; the fallback scan for a button
whose text matches the show-more pattern is a bare evaluation with no
try/except around it, so its failure propagates out of the function. -/
def expand_features_if_needed (env : ExpandEnv) (fuel : Nat) : Except String ExpandOutcome :=
  let before := countFeatures env 0
  if safe_click env then Except.ok (expandWait env before fuel 1)
  else
    match env.fallbackClickEval with
    | Except.error e => Except.error e
    | Except.ok true => Except.ok (expandWait env before fuel 1)
    | Except.ok false => Except.ok ExpandOutcome.noop

/-- Boolean success of an Except-valued computation. -/
def exceptOk {α : Type} : Except String α → Bool
  | Except.ok _ => true
  | Except.error _ => false

-- ===========================================================================
-- Concrete fixtures used by counterexamples and witnesses
-- ===========================================================================

/-- An environment whose listing readiness wait times out on every page. -/
def c2Env : Env :=
  ⟨fun _ => false, fun _ => [], fun _ => Except.error ⟨"RuntimeError", "nav"⟩,
   fun _ => none⟩

/-- An environment whose first page is ready but yields no hrefs. -/
def c2EmptyEnv : Env :=
  ⟨fun _ => true, fun _ => [], fun _ => Except.error ⟨"RuntimeError", "nav"⟩,
   fun _ => none⟩

/-- A forever-environment where every run times out on page 1. -/
def c2ForeverEnv : ForeverEnv := ⟨fun _ => c2Env, fun _ => 0⟩

/-- An environment whose detail pipeline raises for every url, with a
healthy store. -/
def c3Env : Env :=
  ⟨fun _ => true, fun _ => ["/new-cars/a"],
   fun _ => Except.error ⟨"RuntimeError", "mid-extract"⟩,
   fun _ => none⟩

/-- A fully populated extraction result. -/
def demoDetail : Detail :=
  ⟨some "2025 Car", some ["Home", "New Cars"], some "SAR 123,456", some 123456,
   some ["/resized/car_model/webp_listing_main"], some [("Engine", "V6")],
   some [("Length", "4m")], some "desc", some "<p>desc</p>", some ["ABS"]⟩

/-- An environment whose detail pipeline succeeds but whose store rejects
every write attempt: the OK upsert raises, and the FAILED upsert raises too
and is swallowed. -/
def c3StoreDownEnv : Env :=
  ⟨fun _ => true, fun _ => ["/new-cars/a"], fun _ => Except.ok demoDetail,
   fun _ => some ⟨"AutoReconnect", "store down"⟩⟩

/-- An environment whose store rejects the OK upsert but accepts the
FAILED upsert (a transient outage hitting only the first attempt). -/
def c3OkWriteFailsEnv : Env :=
  ⟨fun _ => true, fun _ => ["/new-cars/a"], fun _ => Except.ok demoDetail,
   fun doc =>
     if assocGet doc "status" = some (Val.s "OK")
     then some ⟨"AutoReconnect", "store down"⟩ else none⟩

/-- Two img elements: one curated vehicle source, one fallback-only. -/
def c6Imgs : List ImgEl :=
  [⟨"", "/resized/car_model/webp_listing_main", "", "", ""⟩,
   ⟨"", "/resized/car_model/plain", "", "", ""⟩]

/-- A rendering context where the aria-label button is absent and the
fallback button scan's evaluation raises. -/
def c7BadEnv : ExpandEnv :=
  ⟨fun _ => Except.ok 0, Except.ok false, Except.error "Evaluate failed",
   fun _ => Except.ok false⟩

/-- A rendering context with no expand control at all. -/
def c7NoopEnv : ExpandEnv :=
  ⟨fun _ => Except.ok 0, Except.ok false, Except.ok false,
   fun _ => Except.ok false⟩

/-- A first upsert document. -/
def c1d1 : Doc :=
  [("url", Val.s "https://x"), ("createdAt", Val.t 1), ("updatedAt", Val.t 1)]

/-- A second upsert document for the same identity. -/
def c1d2 : Doc :=
  [("url", Val.s "https://x"), ("createdAt", Val.t 2), ("updatedAt", Val.t 2)]

-- ===========================================================================
-- Helper lemmas: substring and first-replacement
-- ===========================================================================

theorem isPrefixOf_append_self (a b : List Char) : List.isPrefixOf a (a ++ b) = true := by
  induction a with
  | nil => simp [List.isPrefixOf]
  | cons c cs ih => simp [List.isPrefixOf, ih]

theorem listSub_append_self (a b : List Char) : listSub a (a ++ b) = true := by
  cases a with
  | nil =>
    cases b with
    | nil => rfl
    | cons x xs => rfl
  | cons c cs => simp [listSub, List.isPrefixOf, isPrefixOf_append_self]

theorem replaceFirstGo_not_sub (pat rep : List Char) (l : List Char)
    (h : listSub pat l = false) : replaceFirstGo pat rep l = l := by
  induction l with
  | nil => rfl
  | cons c cs ih =>
    rw [listSub, Bool.or_eq_false_iff] at h
    rw [replaceFirstGo, if_neg (by simp [h.1]), ih h.2]

theorem listSub_replaceFirstGo (pat rep : List Char) (hp : pat ≠ []) (l : List Char)
    (h : listSub pat l = true) : listSub rep (replaceFirstGo pat rep l) = true := by
  induction l with
  | nil =>
    rw [listSub, List.isEmpty_iff] at h
    exact absurd h hp
  | cons c cs ih =>
    by_cases hpre : List.isPrefixOf pat (c :: cs) = true
    · rw [replaceFirstGo, if_pos hpre]
      exact listSub_append_self rep _
    · rw [replaceFirstGo, if_neg hpre]
      rw [listSub, Bool.or_eq_true] at h
      have h2 := h.resolve_left hpre
      rw [listSub, ih h2, Bool.or_true]

-- ===========================================================================
-- C9: to_arabic_url is idempotent
-- ===========================================================================

/-- C9: to_arabic_url is idempotent: applying the localization to an already
localized (or unlocalizable, or empty) url returns it unchanged, so a second
application never changes the result of the first. -/
theorem c9_to_arabic_url_idempotent (url : String) :
    to_arabic_url (to_arabic_url url) = to_arabic_url url := by
  by_cases h0 : url = ""
  · subst h0; rfl
  · by_cases h1 : strContains url AR_SEG = true
    · have hfix : to_arabic_url url = url := by
        rw [to_arabic_url, if_neg h0, if_pos h1]
      rw [hfix]; exact hfix
    · by_cases h2 : strContains url BASE_SEG = true
      · have hrep : strContains (pyReplaceFirst url BASE_SEG AR_SEG) AR_SEG = true := by
          rw [pyReplaceFirst, if_neg (by decide)]
          exact listSub_replaceFirstGo BASE_SEG.toList AR_SEG.toList (by decide) url.toList h2
        have hurl : to_arabic_url url = pyReplaceFirst url BASE_SEG AR_SEG := by
          rw [to_arabic_url, if_neg h0, if_neg h1]
        rw [hurl]
        by_cases hre : pyReplaceFirst url BASE_SEG AR_SEG = ""
        · rw [to_arabic_url, if_pos hre]
        · rw [to_arabic_url, if_neg hre, if_pos hrep]
      · have hfixRep : pyReplaceFirst url BASE_SEG AR_SEG = url := by
          rw [pyReplaceFirst, if_neg (by decide),
            replaceFirstGo_not_sub _ _ _ (by simpa [strContains] using h2)]
          rfl
        have hfix : to_arabic_url url = url := by
          rw [to_arabic_url, if_neg h0, if_neg h1, hfixRep]
        rw [hfix]; exact hfix

-- ===========================================================================
-- C5 and C10: the price derivation
-- ===========================================================================

/-- C5: the price text SAR 123,456 derives the numeric value 123456 (digits
only of the matched substring), and any matched price text containing no
digit characters derives a null numeric value. -/
theorem c5_price_derivation :
    (priceTextOf ["SAR 123,456"] = some "SAR 123,456" ∧
     priceNumberOf (priceTextOf ["SAR 123,456"]) = some 123456) ∧
    ∀ t : String, digitsOf t = [] → priceNumberOf (some t) = none := by
  refine ⟨by decide, ?_⟩
  intro t ht
  simp [priceNumberOf, ht, jsNatOfDigits]

/-- C5 witness: a matched-shape price text with no digits derives null. -/
theorem c5_witness :
    digitsOf "SAR .," = [] ∧ priceNumberOf (some "SAR .,") = none :=
  ⟨by decide, c5_price_derivation.2 "SAR .," (by decide)⟩

/-- C10: a matched price text whose digits form the number zero derives a
null numeric value, not 0 (the JS falsy-to-null coercion), even though
digits are present, and in general a zero digits-value derives null. -/
theorem c10_zero_price_null :
    (priceTextOf ["SAR 0"] = some "SAR 0" ∧
     priceNumberOf (priceTextOf ["SAR 0"]) = none ∧
     digitsOf "SAR 0" ≠ []) ∧
    ∀ t : String, jsNatOfDigits (digitsOf t) = 0 → priceNumberOf (some t) = none := by
  refine ⟨by decide, ?_⟩
  intro t ht
  simp [priceNumberOf, ht]

/-- C10 witness: SAR 000 also derives null while containing digits. -/
theorem c10_witness :
    jsNatOfDigits (digitsOf "SAR 000") = 0 ∧ priceNumberOf (some "SAR 000") = none :=
  ⟨by decide, c10_zero_price_null.2 "SAR 000" (by decide)⟩

-- ===========================================================================
-- C6: curated images are preferred, never mixed with fallback-only sources
-- ===========================================================================

theorem mem_dedupFirstAux (l : List String) :
    ∀ (seen : List String) (x : String), x ∈ dedupFirstAux seen l → x ∈ l := by
  induction l with
  | nil => intro seen x h; simp [dedupFirstAux] at h
  | cons s rest ih =>
    intro seen x h
    rw [dedupFirstAux] at h
    by_cases hs : s ∈ seen
    · rw [if_pos hs] at h
      exact List.mem_cons_of_mem _ (ih _ _ h)
    · rw [if_neg hs] at h
      rcases List.mem_cons.mp h with h1 | h2
      · exact h1 ▸ List.mem_cons_self _ _
      · exact List.mem_cons_of_mem _ (ih _ _ h2)

theorem isCurated_ne_empty (s : String) (h : isCurated s = true) : s ≠ "" := by
  intro he
  subst he
  exact absurd h (by decide)

theorem filter_nonempty_filter_curated (l : List String) :
    (l.filter (fun s => s != "")).filter isCurated = l.filter isCurated := by
  induction l with
  | nil => rfl
  | cons a l ih =>
    by_cases ha : isCurated a = true
    · have hne : (a != "") = true := by
        simpa using isCurated_ne_empty a ha
      simp [List.filter_cons, hne, ha, ih]
    · by_cases hne : (a != "") = true
      · simp [List.filter_cons, hne, ha, ih]
      · have ha0 : a = "" := by simpa using hne
        subst ha0
        simpa [List.filter_cons] using ih

/-- C6: whenever the collected image sources contain at least one curated
(main or slide-show) vehicle source, the returned image list is exactly the
first-seen-order deduplication of the curated sources, and in particular
every returned source is curated: fallback-only sources never appear
alongside curated ones. -/
theorem c6_curated_images_preferred (imgs : List ImgEl)
    (hcur : (collectSources imgs).filter isCurated ≠ []) :
    extractImages imgs = dedupFirstAux [] ((collectSources imgs).filter isCurated) ∧
    ∀ x ∈ extractImages imgs, isCurated x = true := by
  have hpref : ((collectSources imgs).filter (fun s => s != "")).filter isCurated
      = (collectSources imgs).filter isCurated := filter_nonempty_filter_curated _
  have hne : (((collectSources imgs).filter (fun s => s != "")).filter isCurated).isEmpty = false := by
    rw [hpref]
    cases he : ((collectSources imgs).filter isCurated).isEmpty
    · rfl
    · exact absurd (List.isEmpty_iff.mp he) hcur
  have hmain : extractImages imgs
      = dedupFirstAux [] ((collectSources imgs).filter isCurated) := by
    rw [extractImages, pickImages, hne]
    simp only [Bool.false_eq_true, if_false, hpref]
  refine ⟨hmain, ?_⟩
  intro x hx
  rw [hmain] at hx
  exact (List.mem_filter.mp (mem_dedupFirstAux _ _ _ hx)).2

/-- C6 witness: on a bucket holding one curated and one fallback-only
source, the curated subset alone is returned. -/
theorem c6_witness :
    extractImages c6Imgs = dedupFirstAux [] ((collectSources c6Imgs).filter isCurated) ∧
    ∀ x ∈ extractImages c6Imgs, isCurated x = true :=
  c6_curated_images_preferred c6Imgs (by decide)

-- ===========================================================================
-- C7: expand_features_if_needed and the unprotected fallback evaluation
-- ===========================================================================

/-- C7 counterexample: in a context where the aria-label control is absent
and the fallback button-scan evaluation fails, expand_features_if_needed
does not return normally: the claim that it always succeeds for every
rendering context, including one where an in-context evaluation fails, is
false on the code. -/
theorem c7_counterexample :
    ¬ (exceptOk (expand_features_if_needed c7BadEnv 5) = true) := by decide

/-- C7 amended: expand_features_if_needed returns normally whenever the
aria-label click succeeds or the fallback button-scan evaluation does not
itself raise (every other evaluation site is exception-protected), and a
context with no expand control at all is an immediate no-op; but the
fallback scan is a bare evaluation whose failure propagates. -/
theorem c7_expand_no_raise_unless_fallback_eval_fails :
    (∀ (env : ExpandEnv) (fuel : Nat),
      safe_click env = true ∨ exceptOk env.fallbackClickEval = true →
      exceptOk (expand_features_if_needed env fuel) = true) ∧
    (∀ (env : ExpandEnv) (fuel : Nat),
      safe_click env = false → env.fallbackClickEval = Except.ok false →
      expand_features_if_needed env fuel = Except.ok ExpandOutcome.noop) := by
  constructor
  · intro env fuel h
    rcases h with hclick | hfb
    · rw [expand_features_if_needed, if_pos hclick]
      rfl
    · cases hfe : env.fallbackClickEval with
      | error e => rw [hfe] at hfb; simp [exceptOk] at hfb
      | ok b =>
        by_cases hclick : safe_click env = true
        · rw [expand_features_if_needed, if_pos hclick]; rfl
        · rw [expand_features_if_needed, if_neg hclick, hfe]
          cases b <;> rfl
  · intro env fuel h1 h2
    rw [expand_features_if_needed, if_neg (by simp [h1]), h2]

/-- C7 witness: with no expand control present at all, the call is a normal
no-op return. -/
theorem c7_witness :
    exceptOk (expand_features_if_needed c7NoopEnv 5) = true ∧
    expand_features_if_needed c7NoopEnv 5 = Except.ok ExpandOutcome.noop :=
  ⟨c7_expand_no_raise_unless_fallback_eval_fails.1 c7NoopEnv 5 (Or.inr rfl),
   c7_expand_no_raise_unless_fallback_eval_fails.2 c7NoopEnv 5 rfl rfl⟩

-- ===========================================================================
-- Helper lemmas: association-list documents and the store
-- ===========================================================================

theorem assocGet_cons (a : String) (b : Val) (d : Doc) (k : String) :
    assocGet ((a, b) :: d) k = if a == k then some b else assocGet d k := by
  cases h : (a == k) with
  | true => simp [assocGet, List.find?, h]
  | false => simp [assocGet, List.find?, h]

theorem removeKey_cons (p : String × Val) (d : Doc) (k : String) :
    removeKey (p :: d) k
      = if p.1 != k then p :: removeKey d k else removeKey d k := by
  rw [removeKey, List.filter_cons]
  rfl

theorem assocGet_removeKey_ne (d : Doc) (k k2 : String) (h : k ≠ k2) :
    assocGet (removeKey d k2) k = assocGet d k := by
  induction d with
  | nil => rfl
  | cons p d ih =>
    obtain ⟨a, b⟩ := p
    by_cases hak : a = k2
    · subst hak
      rw [removeKey_cons]
      simp only [bne_self_eq_false, Bool.false_eq_true, if_false]
      rw [ih, assocGet_cons, if_neg (by simpa using (Ne.symm h))]
    · rw [removeKey_cons, if_pos (by simpa using hak)]
      rw [assocGet_cons, assocGet_cons, ih]

theorem assocGet_setField_self (d : Doc) (k : String) (v : Val) :
    assocGet (setField d k v) k = some v := by
  rw [setField, assocGet_cons, if_pos (by simp)]

theorem assocGet_setField_ne (d : Doc) (k k2 : String) (v : Val) (h : k ≠ k2) :
    assocGet (setField d k2 v) k = assocGet d k := by
  rw [setField, assocGet_cons, if_neg (by simpa using (Ne.symm h)), assocGet_removeKey_ne _ _ _ h]

theorem applySet_cons (d : Doc) (p : String × Val) (s : Doc) :
    applySet d (p :: s) = applySet (setField d p.1 p.2) s := rfl

theorem docKeys_cons (p : String × Val) (d : Doc) :
    docKeys (p :: d) = p.1 :: docKeys d := rfl

theorem applySet_frame (d s : Doc) (k : String) (h : k ∉ docKeys s) :
    assocGet (applySet d s) k = assocGet d k := by
  induction s generalizing d with
  | nil => rfl
  | cons p s ih =>
    rw [docKeys_cons, List.mem_cons] at h
    push_neg at h
    rw [applySet_cons, ih _ h.2, assocGet_setField_ne _ _ _ _ h.1]

theorem applySet_get (s : Doc) (k : String) (v : Val) :
    ∀ (d : Doc), (docKeys s).Nodup → assocGet s k = some v →
      assocGet (applySet d s) k = some v := by
  induction s with
  | nil => intro d hn hg; simp [assocGet, List.find?] at hg
  | cons p s ih =>
    intro d hn hg
    obtain ⟨a, b⟩ := p
    rw [docKeys_cons, List.nodup_cons] at hn
    by_cases hak : a = k
    · subst hak
      rw [assocGet_cons, if_pos (by simp)] at hg
      rw [applySet_cons, applySet_frame _ _ _ hn.1, assocGet_setField_self]
      exact hg
    · rw [assocGet_cons, if_neg (by simpa using hak)] at hg
      rw [applySet_cons]
      exact ih _ hn.2 hg

theorem docKeys_removeKey (d : Doc) (k : String) :
    docKeys (removeKey d k) = (docKeys d).filter (fun x => x != k) := by
  induction d with
  | nil => rfl
  | cons p d ih =>
    rw [removeKey_cons, docKeys_cons, List.filter_cons]
    by_cases h : (p.1 != k) = true
    · rw [if_pos h, if_pos h, docKeys_cons, ih]
    · rw [if_neg h, if_neg h, ih]

theorem not_mem_docKeys_removeKey (d : Doc) (k : String) :
    k ∉ docKeys (removeKey d k) := by
  rw [docKeys_removeKey]
  intro h
  have := (List.mem_filter.mp h).2
  simp at this

theorem nodup_docKeys_removeKey (d : Doc) (k : String) (h : (docKeys d).Nodup) :
    (docKeys (removeKey d k)).Nodup := by
  rw [docKeys_removeKey]
  exact h.filter _

theorem storeGet_cons (a : String) (b : Doc) (st : Store) (i : String) :
    storeGet ((a, b) :: st) i = if a == i then some b else storeGet st i := by
  cases h : (a == i) with
  | true => simp [storeGet, List.find?, h]
  | false => simp [storeGet, List.find?, h]

theorem storeGet_filter_ne (st : Store) (i j : String) (h : i ≠ j) :
    storeGet (st.filter (fun p => p.1 != j)) i = storeGet st i := by
  induction st with
  | nil => rfl
  | cons p st ih =>
    obtain ⟨a, b⟩ := p
    rw [List.filter_cons]
    by_cases haj : (a != j) = true
    · rw [if_pos haj, storeGet_cons, storeGet_cons, ih]
    · rw [if_neg haj]
      have ha : a = j := by simpa using haj
      rw [ih, storeGet_cons, if_neg (by simp [ha, Ne.symm h])]

theorem storeGet_storeSet_self (st : Store) (i : String) (d : Doc) :
    storeGet (storeSet st i d) i = some d := by
  rw [storeSet, storeGet_cons, if_pos (by simp)]

theorem storeGet_storeSet_ne (st : Store) (i j : String) (d : Doc) (h : i ≠ j) :
    storeGet (storeSet st j d) i = storeGet st i := by
  rw [storeSet, storeGet_cons, if_neg (by simpa using (Ne.symm h)), storeGet_filter_ne _ _ _ h]

theorem save_doc_frame (st : Store) (doc : Doc) (i : String) (h : docKey doc ≠ i) :
    storeGet (save_doc st doc) i = storeGet st i := by
  rw [save_doc]
  by_cases hk : docKey doc = ""
  · rw [if_pos hk]
  · rw [if_neg hk]
    cases hex : storeGet st (docKey doc) with
    | some ex => exact storeGet_storeSet_ne _ _ _ _ (Ne.symm h)
    | none => exact storeGet_storeSet_ne _ _ _ _ (Ne.symm h)

theorem save_doc_writes (st : Store) (doc : Doc) (h : docKey doc ≠ "") :
    ∃ base, storeGet (save_doc st doc) (docKey doc)
      = some (applySet base (removeKey doc "createdAt")) := by
  rw [save_doc, if_neg h]
  cases hex : storeGet st (docKey doc) with
  | some ex => exact ⟨ex, storeGet_storeSet_self _ _ _⟩
  | none => exact ⟨_, storeGet_storeSet_self _ _ _⟩

theorem urlStrOf_okDoc (u : String) (d : Detail) (n : Nat) :
    urlStrOf (okDoc u d n) = u := by
  show pyOrEmptyStr (assocGet (okDoc u d n) "url") = u
  rw [show assocGet (okDoc u d n) "url" = some (Val.s u) from rfl]
  show (if pyTruthy (Val.s u) then pyStr (Val.s u) else "") = u
  by_cases hu : u = ""
  · subst hu; rfl
  · rw [if_pos (by simpa [pyTruthy] using hu)]
    rfl

theorem urlStrOf_failDoc (u : String) (e : PyExc) (n : Nat) :
    urlStrOf (failDoc u e n) = u := by
  show pyOrEmptyStr (assocGet (failDoc u e n) "url") = u
  rw [show assocGet (failDoc u e n) "url" = some (Val.s u) from rfl]
  show (if pyTruthy (Val.s u) then pyStr (Val.s u) else "") = u
  by_cases hu : u = ""
  · subst hu; rfl
  · rw [if_pos (by simpa [pyTruthy] using hu)]
    rfl

theorem docKey_okDoc (u : String) (d : Detail) (n : Nat) :
    docKey (okDoc u d n) = pyStrip u := by
  rw [docKey, urlStrOf_okDoc]

theorem docKey_failDoc (u : String) (e : PyExc) (n : Nat) :
    docKey (failDoc u e n) = pyStrip u := by
  rw [docKey, urlStrOf_failDoc]

theorem pyRepr_ne_empty (e : PyExc) : pyRepr e ≠ "" := by
  intro h
  have hlen := congrArg String.length h
  rw [pyRepr, String.length_append, String.length_append, String.length_append] at hlen
  rw [show ("(" : String).length = 1 from rfl, show (")" : String).length = 1 from rfl,
    show ("" : String).length = 0 from rfl] at hlen
  omega

-- ===========================================================================
-- C1: createdAt is written only on first insert
-- ===========================================================================

/-- C1: for two upserts through save_doc to the same nonempty identity, the
createdAt stored after the second write equals the createdAt stored after
the first write (save_doc moves createdAt into the insert-only clause), and
every other field the second document provides, updatedAt and scrapedAt
included, is set by the second write. -/
theorem c1_createdAt_insert_only (st : Store) (d1 d2 : Doc) (u : String)
    (h1 : docKey d1 = u) (h2 : docKey d2 = u) (hu : u ≠ "")
    (hnodup : (docKeys d2).Nodup) :
    ((storeGet (save_doc (save_doc st d1) d2) u).bind (fun dd => assocGet dd "createdAt")
      = (storeGet (save_doc st d1) u).bind (fun dd => assocGet dd "createdAt")) ∧
    ∀ (k : String) (v : Val), k ≠ "createdAt" → assocGet d2 k = some v →
      (storeGet (save_doc (save_doc st d1) d2) u).bind (fun dd => assocGet dd k) = some v := by
  obtain ⟨b1, hb1⟩ := save_doc_writes st d1 (by rw [h1]; exact hu)
  rw [h1] at hb1
  have hsecond : save_doc (save_doc st d1) d2
      = storeSet (save_doc st d1) u
          (applySet (applySet b1 (removeKey d1 "createdAt")) (removeKey d2 "createdAt")) := by
    rw [save_doc, h2, if_neg hu, hb1]
  rw [hsecond, storeGet_storeSet_self, hb1]
  constructor
  · exact applySet_frame _ _ _ (not_mem_docKeys_removeKey d2 "createdAt")
  · intro k v hk hv
    exact applySet_get _ _ _ _ (nodup_docKeys_removeKey _ _ hnodup)
      (by rw [assocGet_removeKey_ne _ _ _ hk]; exact hv)

/-- C1 witness: two concrete upserts to the same identity keep the first
createdAt and set the second updatedAt. -/
theorem c1_witness :
    ((storeGet (save_doc (save_doc [] c1d1) c1d2) "https://x").bind
        (fun dd => assocGet dd "createdAt")
      = (storeGet (save_doc [] c1d1) "https://x").bind (fun dd => assocGet dd "createdAt")) ∧
    (storeGet (save_doc (save_doc [] c1d1) c1d2) "https://x").bind
        (fun dd => assocGet dd "updatedAt") = some (Val.t 2) :=
  ⟨(c1_createdAt_insert_only [] c1d1 c1d2 "https://x" (by decide) (by decide)
      (by decide) (by decide)).1,
   (c1_createdAt_insert_only [] c1d1 c1d2 "https://x" (by decide) (by decide)
      (by decide) (by decide)).2 "updatedAt" (Val.t 2) (by decide) (by decide)⟩

-- ===========================================================================
-- C4: a failure-path write leaves previously stored rich fields unchanged
-- ===========================================================================

/-- C4: after a successful extraction write, a later failure-path write to
the same identity (which provides only identity, localization, status,
error and timestamps) leaves every rich content field of the stored
document unchanged, because the upsert sets only the provided fields. -/
theorem c4_failed_write_preserves_rich_fields (st : Store) (u : String) (d : Detail)
    (e : PyExc) (now1 now2 : Nat) (hu : u ≠ "") (hstrip : pyStrip u = u) :
    ∀ k ∈ richFields,
      (storeGet (save_doc (save_doc st (okDoc u d now1)) (failDoc u e now2)) u).bind
          (fun dd => assocGet dd k)
        = (storeGet (save_doc st (okDoc u d now1)) u).bind (fun dd => assocGet dd k) := by
  have hk1 : docKey (okDoc u d now1) = u := by rw [docKey_okDoc, hstrip]
  have hk2 : docKey (failDoc u e now2) = u := by rw [docKey_failDoc, hstrip]
  obtain ⟨b1, hb1⟩ := save_doc_writes st (okDoc u d now1) (by rw [hk1]; exact hu)
  rw [hk1] at hb1
  have hsecond : save_doc (save_doc st (okDoc u d now1)) (failDoc u e now2)
      = storeSet (save_doc st (okDoc u d now1)) u
          (applySet (applySet b1 (removeKey (okDoc u d now1) "createdAt"))
            (removeKey (failDoc u e now2) "createdAt")) := by
    rw [save_doc, hk2, if_neg hu, hb1]
  intro k hk
  rw [hsecond, storeGet_storeSet_self, hb1]
  refine applySet_frame _ _ _ ?_
  have hkeys : docKeys (removeKey (failDoc u e now2) "createdAt")
      = ["_id", "url", "arUrl", "source", "type", "status", "error",
         "updatedAt", "scrapedAt"] := rfl
  rw [hkeys]
  rw [richFields] at hk
  fin_cases hk <;> decide

/-- C4 witness: a concrete OK write followed by a concrete FAILED write
leaves the stored title field at its prior value. -/
theorem c4_witness :
    (storeGet (save_doc (save_doc [] (okDoc "https://x" demoDetail 1))
        (failDoc "https://x" ⟨"RuntimeError", "boom"⟩ 2)) "https://x").bind
      (fun dd => assocGet dd "title")
    = (storeGet (save_doc [] (okDoc "https://x" demoDetail 1)) "https://x").bind
      (fun dd => assocGet dd "title") :=
  c4_failed_write_preserves_rich_fields [] "https://x" demoDetail
    ⟨"RuntimeError", "boom"⟩ 1 2 (by decide) (by decide) "title" (by decide)

-- ===========================================================================
-- Helper lemmas: the run scheduler loops
-- ===========================================================================

theorem runItems_cons_seen (env : Env) (now : Nat) (st : SchedState) (u : String)
    (rest : List String) (h : u ∈ st.seen) :
    runItems env now st (u :: rest) = runItems env now st rest := by
  rw [runItems, if_pos h]

theorem runItems_cons_new (env : Env) (now : Nat) (st : SchedState) (u : String)
    (rest : List String) (h : u ∉ st.seen) :
    runItems env now st (u :: rest)
      = runItems env now
          ⟨processItem env now st.store u, u :: st.seen, st.processed ++ [u]⟩ rest := by
  rw [runItems, if_neg h]

theorem writeFail_frame (env : Env) (now : Nat) (store : Store) (u : String) (e : PyExc)
    (i : String) (hne : pyStrip u ≠ i) :
    storeGet (writeFail env now store u e) i = storeGet store i := by
  rw [writeFail]
  cases env.saveFails (failDoc u e now) with
  | none => exact save_doc_frame store (failDoc u e now) i (by rw [docKey_failDoc]; exact hne)
  | some f => rfl

theorem processItem_frame (env : Env) (now : Nat) (store : Store) (u i : String)
    (hne : pyStrip u ≠ i) :
    storeGet (processItem env now store u) i = storeGet store i := by
  cases hdet : env.detail (to_arabic_url u) with
  | ok d =>
    cases hsf : env.saveFails (okDoc u d now) with
    | none =>
      simp only [processItem, hdet, hsf]
      exact save_doc_frame store (okDoc u d now) i (by rw [docKey_okDoc]; exact hne)
    | some e =>
      simp only [processItem, hdet, hsf]
      exact writeFail_frame env now store u e i hne
  | error e =>
    simp only [processItem, hdet]
    exact writeFail_frame env now store u e i hne

theorem save_failDoc_spec (store : Store) (u : String) (e : PyExc) (now : Nat)
    (htrim : pyStrip u ≠ "") :
    ∃ dd, storeGet (save_doc store (failDoc u e now)) (pyStrip u) = some dd ∧
      assocGet dd "status" = some (Val.s "FAILED") ∧
      assocGet dd "error" = some (Val.s (pyRepr e)) := by
  obtain ⟨base, hb⟩ :=
    save_doc_writes store (failDoc u e now) (by rw [docKey_failDoc]; exact htrim)
  rw [docKey_failDoc] at hb
  have hnodup : (docKeys (removeKey (failDoc u e now) "createdAt")).Nodup := by
    rw [show docKeys (removeKey (failDoc u e now) "createdAt")
        = ["_id", "url", "arUrl", "source", "type", "status", "error",
           "updatedAt", "scrapedAt"] from rfl]
    decide
  refine ⟨_, hb, ?_, ?_⟩
  · exact applySet_get _ _ _ _ hnodup rfl
  · exact applySet_get _ _ _ _ hnodup rfl

theorem writeFail_spec (env : Env) (now : Nat) (store : Store) (u : String) (e : PyExc)
    (hfw : env.saveFails (failDoc u e now) = none) (htrim : pyStrip u ≠ "") :
    ∃ dd, storeGet (writeFail env now store u e) (pyStrip u) = some dd ∧
      assocGet dd "status" = some (Val.s "FAILED") ∧
      assocGet dd "error" = some (Val.s (pyRepr e)) := by
  rw [writeFail, hfw]
  exact save_failDoc_spec store u e now htrim

theorem processItem_fail (env : Env) (now : Nat) (store : Store) (u : String) (e : PyExc)
    (hfail : env.detail (to_arabic_url u) = Except.error e ∨
      ∃ d, env.detail (to_arabic_url u) = Except.ok d ∧
        env.saveFails (okDoc u d now) = some e)
    (hfw : env.saveFails (failDoc u e now) = none)
    (htrim : pyStrip u ≠ "") :
    ∃ dd, storeGet (processItem env now store u) (pyStrip u) = some dd ∧
      assocGet dd "status" = some (Val.s "FAILED") ∧
      assocGet dd "error" = some (Val.s (pyRepr e)) := by
  rcases hfail with hf | ⟨d, hok, hsf⟩
  · simp only [processItem, hf]
    exact writeFail_spec env now store u e hfw htrim
  · simp only [processItem, hok, hsf]
    exact writeFail_spec env now store u e hfw htrim

theorem runItems_store_frame (env : Env) (now : Nat) (i : String) :
    ∀ (rest : List String) (st : SchedState),
      (∀ v ∈ rest, pyStrip v = i → v ∈ st.seen) →
      storeGet (runItems env now st rest).store i = storeGet st.store i := by
  intro rest
  induction rest with
  | nil => intro st _; rfl
  | cons v vs ih =>
    intro st h
    by_cases hv : v ∈ st.seen
    · rw [runItems_cons_seen env now st v vs hv]
      exact ih st (fun w hw hk => h w (List.mem_cons_of_mem _ hw) hk)
    · rw [runItems_cons_new env now st v vs hv]
      have hvkey : pyStrip v ≠ i := fun hk => hv (h v (List.mem_cons_self _ _) hk)
      rw [ih ⟨processItem env now st.store v, v :: st.seen, st.processed ++ [v]⟩
        (fun w hw hk => List.mem_cons_of_mem _ (h w (List.mem_cons_of_mem _ hw) hk))]
      exact processItem_frame env now st.store v i hvkey

theorem runItems_processed_mono (env : Env) (now : Nat) :
    ∀ (urls : List String) (st : SchedState) (x : String),
      x ∈ st.processed → x ∈ (runItems env now st urls).processed := by
  intro urls
  induction urls with
  | nil => intro st x h; exact h
  | cons v vs ih =>
    intro st x h
    by_cases hv : v ∈ st.seen
    · rw [runItems_cons_seen env now st v vs hv]
      exact ih st x h
    · rw [runItems_cons_new env now st v vs hv]
      exact ih _ x (List.mem_append_left _ h)

theorem runItems_processes_new (env : Env) (now : Nat) :
    ∀ (urls : List String) (st : SchedState) (v : String),
      v ∈ urls → v ∉ st.seen → v ∈ (runItems env now st urls).processed := by
  intro urls
  induction urls with
  | nil => intro st v hv; simp at hv
  | cons w ws ih =>
    intro st v hv hseen
    by_cases hw : w ∈ st.seen
    · rw [runItems_cons_seen env now st w ws hw]
      rcases List.mem_cons.mp hv with rfl | hvs
      · exact absurd hw hseen
      · exact ih st v hvs hseen
    · rw [runItems_cons_new env now st w ws hw]
      rcases List.mem_cons.mp hv with rfl | hvs
      · exact runItems_processed_mono env now ws _ v
          (List.mem_append_right _ (List.mem_singleton.mpr rfl))
      · by_cases hvw : v = w
        · subst hvw
          exact runItems_processed_mono env now ws _ v
            (List.mem_append_right _ (List.mem_singleton.mpr rfl))
        · exact ih _ v hvs (by
            intro hmem
            rcases List.mem_cons.mp hmem with h1 | h2
            · exact hvw h1
            · exact hseen h2)

theorem runItems_inv (env : Env) (now : Nat) :
    ∀ (urls : List String) (st : SchedState),
      st.processed.Nodup → (∀ x ∈ st.processed, x ∈ st.seen) →
      (runItems env now st urls).processed.Nodup ∧
        ∀ x ∈ (runItems env now st urls).processed, x ∈ (runItems env now st urls).seen := by
  intro urls
  induction urls with
  | nil => intro st h1 h2; exact ⟨h1, h2⟩
  | cons w ws ih =>
    intro st h1 h2
    by_cases hw : w ∈ st.seen
    · rw [runItems_cons_seen env now st w ws hw]
      exact ih st h1 h2
    · rw [runItems_cons_new env now st w ws hw]
      refine ih _ ?_ ?_
      · rw [List.nodup_append]
        refine ⟨h1, List.nodup_singleton _, ?_⟩
        intro a ha hb
        rw [List.mem_singleton] at hb
        subst hb
        exact hw (h2 a ha)
      · intro x hx
        rcases List.mem_append.mp hx with h | h
        · exact List.mem_cons_of_mem _ (h2 x h)
        · rw [List.mem_singleton] at h
          subst h
          exact List.mem_cons_self _ _

theorem runPagesFrom_succ_err (env : Env) (now page rem : Nat) (st : SchedState)
    (h : env.anchorsFound page = false) :
    runPagesFrom env now page (rem + 1) st = ⟨st, some NO_ANCHORS_MSG⟩ := by
  have hs : scrape_listing_page env page = Except.error NO_ANCHORS_MSG := by
    rw [scrape_listing_page, if_neg (by simp [h])]
  rw [runPagesFrom, hs]

theorem runPagesFrom_succ_ok (env : Env) (now page rem : Nat) (st : SchedState)
    (h : env.anchorsFound page = true) :
    runPagesFrom env now page (rem + 1) st
      = if listingUrls env page = [] then ⟨st, none⟩
        else runPagesFrom env now (page + 1) rem (runItems env now st (listingUrls env page)) := by
  have hs : scrape_listing_page env page = Except.ok (listingUrls env page) := by
    rw [scrape_listing_page, if_pos h]
  rw [runPagesFrom, hs]

theorem runPages_inv (env : Env) (now : Nat) :
    ∀ (rem page : Nat) (st : SchedState),
      st.processed.Nodup → (∀ x ∈ st.processed, x ∈ st.seen) →
      (runPagesFrom env now page rem st).state.processed.Nodup := by
  intro rem
  induction rem with
  | zero => intro page st h1 _; exact h1
  | succ rem ih =>
    intro page st h1 h2
    cases ha : env.anchorsFound page with
    | false => rw [runPagesFrom_succ_err env now page rem st ha]; exact h1
    | true =>
      rw [runPagesFrom_succ_ok env now page rem st ha]
      by_cases he : listingUrls env page = []
      · rw [if_pos he]; exact h1
      · rw [if_neg he]
        obtain ⟨hn1, hn2⟩ := runItems_inv env now (listingUrls env page) st h1 h2
        exact ih (page + 1) _ hn1 hn2

theorem runPagesFrom_escape_lemma (env : Env) (now : Nat) (p : Nat)
    (hfailp : env.anchorsFound p = false) :
    ∀ (rem page : Nat) (st : SchedState),
      page ≤ p → p < page + rem →
      (∀ q, page ≤ q → q < p → env.anchorsFound q = true ∧ listingUrls env q ≠ []) →
      (runPagesFrom env now page rem st).escaped = some NO_ANCHORS_MSG := by
  intro rem
  induction rem with
  | zero => intro page st h1 h2 _; omega
  | succ rem ih =>
    intro page st h1 h2 h3
    by_cases hpage : page = p
    · subst hpage
      rw [runPagesFrom_succ_err env now page rem st hfailp]
    · have hlt : page < p := lt_of_le_of_ne h1 hpage
      obtain ⟨ha, hne⟩ := h3 page (le_refl _) hlt
      rw [runPagesFrom_succ_ok env now page rem st ha, if_neg hne]
      exact ih (page + 1) _ hlt (by omega) (fun q hq1 hq2 => h3 q (by omega) hq2)

-- ===========================================================================
-- C3: per-item failures are isolated into FAILED writes
-- ===========================================================================

theorem runItems_fail_written (env : Env) (now : Nat) (u : String) (e : PyExc)
    (hfail : env.detail (to_arabic_url u) = Except.error e ∨
      ∃ d, env.detail (to_arabic_url u) = Except.ok d ∧
        env.saveFails (okDoc u d now) = some e)
    (hfw : env.saveFails (failDoc u e now) = none)
    (htrim : pyStrip u ≠ "") :
    ∀ (urls : List String) (st : SchedState),
      u ∈ urls → u ∉ st.seen →
      (∀ v ∈ urls, pyStrip v = pyStrip u → v = u) →
      ∃ dd, storeGet (runItems env now st urls).store (pyStrip u) = some dd ∧
        assocGet dd "status" = some (Val.s "FAILED") ∧
        assocGet dd "error" = some (Val.s (pyRepr e)) := by
  intro urls
  induction urls with
  | nil => intro st hmem; simp at hmem
  | cons w ws ih =>
    intro st hmem hseen hinj
    by_cases hw : w ∈ st.seen
    · have hwu : w ≠ u := fun hh => hseen (hh ▸ hw)
      rw [runItems_cons_seen env now st w ws hw]
      have hmem' : u ∈ ws := by
        rcases List.mem_cons.mp hmem with h | h
        · exact absurd h.symm hwu
        · exact h
      exact ih st hmem' hseen (fun v hv => hinj v (List.mem_cons_of_mem _ hv))
    · rw [runItems_cons_new env now st w ws hw]
      by_cases hwu : w = u
      · subst hwu
        rw [runItems_store_frame env now (pyStrip w) ws
          ⟨processItem env now st.store w, w :: st.seen, st.processed ++ [w]⟩
          (fun v hv hk =>
            (hinj v (List.mem_cons_of_mem _ hv) hk) ▸ List.mem_cons_self _ _)]
        exact processItem_fail env now st.store w e hfail hfw htrim
      · have hmem' : u ∈ ws := by
          rcases List.mem_cons.mp hmem with h | h
          · exact absurd h.symm hwu
          · exact h
        refine ih _ hmem' ?_ (fun v hv => hinj v (List.mem_cons_of_mem _ hv))
        intro hmem2
        rcases List.mem_cons.mp hmem2 with h1 | h2
        · exact hwu h1.symm
        · exact hseen h2

/-- C3 counterexample: the claim that every per-item exception, the
persistence stage included, results in a FAILED-document upsert for the
identity is false on the code.  In an environment whose store rejects every
write, the item's extraction succeeds, the OK upsert raises (the recorded
exception), the handler's own fail write raises too and is swallowed by the
bare except around it, so after the run no document at all is stored for
the identity — in particular no FAILED one. -/
theorem c3_counterexample :
    c3StoreDownEnv.saveFails (okDoc "https://a" demoDetail 0)
        = some ⟨"AutoReconnect", "store down"⟩ ∧
    storeGet (runItems c3StoreDownEnv 0 ⟨[], [], []⟩ ["https://a"]).store
        (pyStrip "https://a") = none := by decide

/-- C3 amended: if the detail pipeline raises for a newly seen url of the
batch, or the pipeline succeeds but the OK-document upsert itself raises,
the per-item handler catches the exception and attempts a FAILED-document
upsert carrying the exception's non-empty repr; the FAILED document is
actually stored provided that fail write does not itself raise (a raising
fail write is swallowed and leaves nothing written).  In every case the run
continues: every newly seen url of the batch is still processed.  The
injectivity hypothesis states that no other url of the batch shares the
failing url's stripped identity. -/
theorem c3_failure_isolated_when_fail_write_lands (env : Env) (now : Nat) (store : Store)
    (seen processed urls : List String) (u : String) (e : PyExc)
    (hmem : u ∈ urls) (hseen : u ∉ seen)
    (hfail : env.detail (to_arabic_url u) = Except.error e ∨
      ∃ d, env.detail (to_arabic_url u) = Except.ok d ∧
        env.saveFails (okDoc u d now) = some e)
    (hfw : env.saveFails (failDoc u e now) = none)
    (hinj : ∀ v ∈ urls, pyStrip v = pyStrip u → v = u)
    (htrim : pyStrip u ≠ "") :
    (∃ dd, storeGet (runItems env now ⟨store, seen, processed⟩ urls).store (pyStrip u)
        = some dd ∧
      assocGet dd "status" = some (Val.s "FAILED") ∧
      assocGet dd "error" = some (Val.s (pyRepr e)) ∧ pyRepr e ≠ "") ∧
    ∀ v ∈ urls, v ∉ seen → v ∈ (runItems env now ⟨store, seen, processed⟩ urls).processed := by
  constructor
  · obtain ⟨dd, h1, h2, h3⟩ :=
      runItems_fail_written env now u e hfail hfw htrim urls ⟨store, seen, processed⟩
        hmem hseen hinj
    exact ⟨dd, h1, h2, h3, pyRepr_ne_empty e⟩
  · intro v hv hvs
    exact runItems_processes_new env now urls ⟨store, seen, processed⟩ v hv hvs

/-- C3 witness: two concrete instances of the amended theorem.  An
extraction failure with a healthy store yields a stored FAILED document
with the exception's non-empty repr; an OK-upsert failure whose fail write
lands yields a stored FAILED document carrying the store exception's repr. -/
theorem c3_witness :
    (∃ dd, storeGet (runItems c3Env 0 ⟨[], [], []⟩ ["https://a"]).store
        (pyStrip "https://a") = some dd ∧
      assocGet dd "status" = some (Val.s "FAILED") ∧
      assocGet dd "error" = some (Val.s (pyRepr ⟨"RuntimeError", "mid-extract"⟩)) ∧
      pyRepr ⟨"RuntimeError", "mid-extract"⟩ ≠ "") ∧
    (∃ dd, storeGet (runItems c3OkWriteFailsEnv 0 ⟨[], [], []⟩ ["https://a"]).store
        (pyStrip "https://a") = some dd ∧
      assocGet dd "status" = some (Val.s "FAILED") ∧
      assocGet dd "error" = some (Val.s (pyRepr ⟨"AutoReconnect", "store down"⟩)) ∧
      pyRepr ⟨"AutoReconnect", "store down"⟩ ≠ "") :=
  ⟨(c3_failure_isolated_when_fail_write_lands c3Env 0 [] [] [] ["https://a"] "https://a"
      ⟨"RuntimeError", "mid-extract"⟩ (by decide) (by decide) (Or.inl rfl) rfl
      (by decide) (by decide)).1,
   (c3_failure_isolated_when_fail_write_lands c3OkWriteFailsEnv 0 [] [] [] ["https://a"]
      "https://a" ⟨"AutoReconnect", "store down"⟩ (by decide) (by decide)
      (Or.inr ⟨demoDetail, rfl, by decide⟩) (by decide) (by decide) (by decide)).1⟩

-- ===========================================================================
-- C8: no detail url is processed twice within one run
-- ===========================================================================

/-- C8: within one run, the list of detail urls actually processed (entered
the per-item pipeline) has no duplicates: a url occurring again, on the same
page or a later one, is skipped through the per-run seen set, so only its
first occurrence is processed. -/
theorem c8_no_url_processed_twice (env : Env) (now maxPages : Nat) (store : Store) :
    ((runOnce env now maxPages store).state.processed).Nodup := by
  rw [runOnce]
  exact runPages_inv env now maxPages 1 ⟨store, [], []⟩ List.nodup_nil (by simp)

-- ===========================================================================
-- C2: the no-results readiness failure and the scheduler
-- ===========================================================================

/-- C2 counterexample: in an environment where the listing readiness wait
times out on page 1 of every run, the claim that the scheduler interprets
the raised failure as end-of-run and later starts the next run is false: the
run's escaped exception is not none, and after a two-run observation budget
zero runs have completed because the exception ends the forever loop. -/
theorem c2_counterexample :
    ¬ ((runOnce c2Env 0 50 []).escaped = none ∧
       0 < (scrape_forever c2ForeverEnv 50 2 []).completedRuns) := by decide

/-- C2 amended: the no-results RuntimeError raised by the listing collector
is not caught by the run scheduler: when the readiness wait fails on the
first page reached after non-empty pages, the run ends with the exception
escaping the page loop, and the forever loop then terminates with it, with
no later run starting (the finally block still closes both tabs on this
path).  Only a page returning an empty url list without raising ends the
run early as a non-error. -/
theorem c2_no_results_error_escapes :
    (∀ (env : Env) (now : Nat) (store : Store) (maxPages p : Nat),
      1 ≤ p → p ≤ maxPages →
      (∀ q, 1 ≤ q → q < p → env.anchorsFound q = true ∧ listingUrls env q ≠ []) →
      env.anchorsFound p = false →
      (runOnce env now maxPages store).escaped = some NO_ANCHORS_MSG) ∧
    (∀ (env : Env) (now : Nat) (store : Store) (maxPages : Nat),
      1 ≤ maxPages → env.anchorsFound 1 = true → listingUrls env 1 = [] →
      (runOnce env now maxPages store).escaped = none) ∧
    (∀ (fe : ForeverEnv) (mp b i : Nat) (st : Store) (e : String),
      (runOnce (fe.runEnv i) (fe.runNow i) mp st).escaped = some e →
      foreverAux fe mp (b + 1) i st
        = ⟨(runOnce (fe.runEnv i) (fe.runNow i) mp st).state.store, 0, some e⟩) := by
  refine ⟨?_, ?_, ?_⟩
  · intro env now store maxPages p h1 h2 h3 h4
    rw [runOnce]
    exact runPagesFrom_escape_lemma env now p h4 maxPages 1 ⟨store, [], []⟩ h1 (by omega) h3
  · intro env now store maxPages h1 h2 h3
    cases maxPages with
    | zero => omega
    | succ m =>
      rw [runOnce, runPagesFrom_succ_ok env now 1 m _ h2, if_pos h3]
  · intro fe mp b i st e hesc
    simp only [foreverAux, hesc]

/-- C2 witness: concrete instances of the three amended statements. -/
theorem c2_witness :
    (runOnce c2Env 0 50 []).escaped = some NO_ANCHORS_MSG ∧
    (runOnce c2EmptyEnv 0 50 []).escaped = none ∧
    foreverAux c2ForeverEnv 50 2 1 []
      = ⟨(runOnce (c2ForeverEnv.runEnv 1) (c2ForeverEnv.runNow 1) 50 []).state.store, 0,
         some NO_ANCHORS_MSG⟩ :=
  ⟨c2_no_results_error_escapes.1 c2Env 0 [] 50 1 (by omega) (by omega)
      (fun q hq1 hq2 => absurd (hq1.trans_lt hq2) (lt_irrefl 1)) rfl,
   c2_no_results_error_escapes.2.1 c2EmptyEnv 0 [] 50 (by omega) rfl rfl,
   c2_no_results_error_escapes.2.2 c2ForeverEnv 50 1 1 [] NO_ANCHORS_MSG rfl⟩
